import Mathlib

/-!
Shallow embedding of `accuracy_checker/postprocessor/resize.py` (the `Resize`
postprocessor): the size-resolution policy (`set_sizes`), the kind-dispatched
entry resizer (`resize`), and the orchestrating `process_image` with its
`apply_to` gating.  External primitives (`ResizeSegmentationMask.segm_resize`
and the PIL bicubic resample) are modelled from their interface contracts.
-/

namespace ResizeSpec

/-- The gating values of `ApplyToOption` used by `process_image`. -/
inductive ApplyToOption where
  | PREDICTION
  | ANNOTATION
  | ALL
deriving DecidableEq, Repr

/-- The dense-value entry kinds registered to the uint8/bicubic resize branch. -/
inductive DenseKind where
  | styleTransferAnnot
  | styleTransferPrediction
  | superResolutionAnnot
  | superResolutionPrediction
  | imageProcessingAnnot
  | imageProcessingPrediction
  | imageInpaintingAnnot
  | imageInpaintingPrediction
deriving DecidableEq, Repr

/-- One pixel: the list of its channel values. -/
abbrev Pixel := List Nat

/-- A dense `value` payload: height × width × channels. -/
abbrev DenseVal := List (List Pixel)

/-- A single-channel mask payload: height × width integer class labels. -/
abbrev Mask2 := List (List Nat)

/-- A multi-channel mask payload: classes × height × width. -/
abbrev Mask3 := List Mask2

/-- A segmentation-prediction `mask` is either 2D or 3D; the code branches on
`len(entry.mask.shape) == 2`. -/
inductive SegMask where
  | m2 (m : Mask2)
  | m3 (m : Mask3)
deriving DecidableEq, Repr

/-- An annotation or prediction result object, tagged by kind as the runtime
single-dispatch registry distinguishes them.  `unrecognized` stands for any
entry kind absent from the dispatch table. -/
inductive Entry where
  | dense (kind : DenseKind) (value : DenseVal)
  | segmentationPrediction (mask : SegMask)
  | segmentationAnnot (mask : Mask2)
  | unrecognized (tag : Nat)
deriving DecidableEq, Repr

/-- The configuration state the `Resize` postprocessor consults:
`dst_height`/`dst_width` from `get_size_from_config` (optional),
`_deprocess_predictions`, the per-frame `image_size` (height, width), and
`apply_to` (None behaves as ALL). -/
structure ResizeConfig where
  dst_height : Option Nat
  dst_width : Option Nat
  deprocess_predictions : Bool
  image_size : Nat × Nat
  apply_to : Option ApplyToOption
deriving DecidableEq, Repr

/-- Python truthiness of `x if x else fallback` for an optional integer:
`None` and `0` both fall back. -/
def pyOrNat (x : Option Nat) (fallback : Nat) : Nat :=
  match x with
  | some n => if n = 0 then fallback else n
  | none => fallback

/-- `entry.value.astype(np.uint8)`: every scalar is truncated to 8 bits. -/
def astype_uint8 (v : DenseVal) : DenseVal :=
  v.map (fun row => row.map (fun px => px.map (fun c => c % 256)))

/-- Modelled from the spec: the continuous resample primitive
(`Image.fromarray(...).resize((width, height), Image.BICUBIC)` from PIL, code
outside this repository).  Contract (spec §6): deterministic bicubic-quality
resampling of an 8-bit-per-channel buffer, producing a (height, width,
channels) result for target (width, height).  Modelled as deterministic
index resampling that preserves channels. -/
def pil_resize (v : DenseVal) (width height : Nat) : DenseVal :=
  (List.range height).map (fun i =>
    (List.range width).map (fun j =>
      (v.getD (i * v.length / height) []).getD (j * (v.headD []).length / width) []))

/-- Modelled from the spec: `ResizeSegmentationMask.segm_resize` is repository
code not under `src/`.  Contract (spec §6): output has shape (target_height,
target_width); every value in the output is a label value present in the
input; deterministic for identical inputs.  Modelled as nearest-index label
resampling. -/
def segm_resize (mask : Mask2) (targetWidth targetHeight : Nat) : Mask2 :=
  (List.range targetHeight).map (fun i =>
    (List.range targetWidth).map (fun j =>
      (mask.getD (i * mask.length / targetHeight) []).getD
        (j * (mask.headD []).length / targetWidth) 0))

/-- `entry.value.shape[0]` of a dense payload. -/
def valueShape0 (v : DenseVal) : Nat := v.length

/-- `entry.value.shape[1]` of a dense payload. -/
def valueShape1 (v : DenseVal) : Nat := (v.headD []).length

/-- The `set_sizes` single-dispatch function: the default rule, the
super-resolution register (fallback to the entry's own shape) and the
segmentation-prediction register (deprocessing forces `image_size[:2]`). -/
def set_sizes (cfg : ResizeConfig) (entry : Entry) : Nat × Nat :=
  match entry with
  | .dense .superResolutionAnnot v =>
      (pyOrNat cfg.dst_height (valueShape0 v), pyOrNat cfg.dst_width (valueShape1 v))
  | .dense .superResolutionPrediction v =>
      (pyOrNat cfg.dst_height (valueShape0 v), pyOrNat cfg.dst_width (valueShape1 v))
  | .segmentationPrediction _ =>
      if cfg.deprocess_predictions then cfg.image_size
      else (pyOrNat cfg.dst_height cfg.image_size.1, pyOrNat cfg.dst_width cfg.image_size.2)
  | _ =>
      (pyOrNat cfg.dst_height cfg.image_size.1, pyOrNat cfg.dst_width cfg.image_size.2)

/-- The `resize` single-dispatch function: dense kinds downcast to uint8 and
resample bicubically; segmentation predictions resize the 2D mask or each
class channel; segmentation annotations resize the 2D mask; every other kind
is returned unchanged. -/
def resize (entry : Entry) (height width : Nat) : Entry :=
  match entry with
  | .dense kind v =>
      .dense kind (pil_resize (astype_uint8 v) width height)
  | .segmentationPrediction (.m2 m) =>
      .segmentationPrediction (.m2 (segm_resize m width height))
  | .segmentationPrediction (.m3 ms) =>
      .segmentationPrediction (.m3 (ms.map (fun c => segm_resize c width height)))
  | .segmentationAnnot m =>
      .segmentationAnnot (segm_resize m width height)
  | .unrecognized t => .unrecognized t

/-- `self.apply_to is None or self.apply_to in [PREDICTION, ALL]`. -/
def predictionGate (a : Option ApplyToOption) : Bool :=
  a.isNone || a == some .PREDICTION || a == some .ALL

/-- `self.apply_to is None or self.apply_to in [ANNOTATION, ALL]`. -/
def annotationGate (a : Option ApplyToOption) : Bool :=
  a.isNone || a == some .ANNOTATION || a == some .ALL

/-- Resolve-and-resize for one prediction paired with an optional annotation:
`set_sizes(annotation or prediction)` then `resize(prediction, height, width)`. -/
def resizePairedPrediction (cfg : ResizeConfig) (a : Option Entry) (p : Entry) : Entry :=
  let sizes := set_sizes cfg (a.getD p)
  resize p sizes.1 sizes.2

/-- Resolve-and-resize of an entry with its own sizes. -/
def resizeSelf (cfg : ResizeConfig) (e : Entry) : Entry :=
  let sizes := set_sizes cfg e
  resize e sizes.1 sizes.2

/-- The prediction pass: with a non-empty annotation collection, zip pairwise
(truncating to the shorter collection, leaving the tail untouched); otherwise
each prediction resolves its own sizes. -/
def predictionPass (cfg : ResizeConfig) (annotations : List (Option Entry))
    (predictions : List Entry) : List Entry :=
  if annotations.isEmpty then
    predictions.map (resizeSelf cfg)
  else
    ((annotations.zip predictions).map (fun ap => resizePairedPrediction cfg ap.1 ap.2))
      ++ predictions.drop annotations.length

/-- The annotation pass: null placeholders are skipped (`continue`), present
entries resolve their own sizes and are resized. -/
def annotationPass (cfg : ResizeConfig) (annotations : List (Option Entry)) :
    List (Option Entry) :=
  annotations.map (fun a =>
    match a with
    | none => none
    | some e => some (resizeSelf cfg e))

/-- `process_image(annotations, predictions)`: the prediction pass runs under
the prediction gate, the annotation pass under the annotation gate, and the
pair `(annotations, predictions)` is returned. -/
def process_image (cfg : ResizeConfig) (annotations : List (Option Entry))
    (predictions : List Entry) : List (Option Entry) × List Entry :=
  let predictions1 :=
    if predictionGate cfg.apply_to then predictionPass cfg annotations predictions
    else predictions
  let annotations1 :=
    if annotationGate cfg.apply_to then annotationPass cfg annotations
    else annotations
  (annotations1, predictions1)

/-- The entry kinds that fall through to the default `set_sizes` register:
everything except the super-resolution kinds and segmentation predictions. -/
def usesDefaultSizeRule : Entry → Bool
  | .dense .superResolutionAnnot _ => false
  | .dense .superResolutionPrediction _ => false
  | .segmentationPrediction _ => false
  | _ => true

/-- A dense payload has rectangular shape height × width × channels. -/
def denseShapeIs (v : DenseVal) (H W C : Nat) : Prop :=
  v.length = H ∧ ∀ row ∈ v, row.length = W ∧ ∀ px ∈ row, px.length = C

/- ------------------------------------------------------------------ -/
/- Helper lemmas                                                       -/
/- ------------------------------------------------------------------ -/

/-- `x if x else fallback` agrees with `Option.getD` once `Some 0` is ruled
out (the config validator enforces `min_value=1` on both overrides). -/
theorem pyOrNat_eq_getD (x : Option Nat) (f : Nat) (hx : x ≠ some 0) :
    pyOrNat x f = x.getD f := by
  cases x with
  | none => rfl
  | some n =>
    have hn : n ≠ 0 := fun h0 => hx (by rw [h0])
    simp [pyOrNat, hn]

/-- Every label produced by the modelled `segm_resize` already occurs in the
input mask, provided the input is a non-empty rectangular 2D array. -/
theorem segm_resize_mem (m : Mask2) (W tw th : Nat)
    (hne : m ≠ []) (hW : 0 < W) (hrows : ∀ row ∈ m, row.length = W) :
    ∀ x ∈ (segm_resize m tw th).flatten, x ∈ m.flatten := by
  intro x hx
  rw [List.mem_flatten] at hx
  obtain ⟨row, hrow, hxrow⟩ := hx
  simp only [segm_resize, List.mem_map, List.mem_range] at hrow
  obtain ⟨i, hi, rfl⟩ := hrow
  simp only [List.mem_map, List.mem_range] at hxrow
  obtain ⟨j, hj, rfl⟩ := hxrow
  have hH : 0 < m.length := List.length_pos.mpr hne
  have hth : 0 < th := Nat.lt_of_le_of_lt (Nat.zero_le i) hi
  have htw : 0 < tw := Nat.lt_of_le_of_lt (Nat.zero_le j) hj
  have hri : i * m.length / th < m.length := by
    rw [Nat.div_lt_iff_lt_mul hth, Nat.mul_comm m.length th]
    exact (Nat.mul_lt_mul_right hH).mpr hi
  have hrowv : m.getD (i * m.length / th) [] = m.get ⟨i * m.length / th, hri⟩ := by
    rw [List.getD_eq_getElem?_getD, List.getElem?_eq_getElem hri]
    rfl
  rw [hrowv]
  have hrmem : m.get ⟨i * m.length / th, hri⟩ ∈ m := List.getElem_mem hri
  have hWhead : (m.headD []).length = W := by
    cases m with
    | nil => exact absurd rfl hne
    | cons a t => exact hrows a (List.mem_cons_self a t)
  have hci : j * (m.headD []).length / tw < (m.get ⟨i * m.length / th, hri⟩).length := by
    rw [hrows _ hrmem, hWhead, Nat.div_lt_iff_lt_mul htw, Nat.mul_comm W tw]
    exact (Nat.mul_lt_mul_right hW).mpr hj
  have hcolv : (m.get ⟨i * m.length / th, hri⟩).getD (j * (m.headD []).length / tw) 0 =
      (m.get ⟨i * m.length / th, hri⟩).get ⟨j * (m.headD []).length / tw, hci⟩ := by
    rw [List.getD_eq_getElem?_getD, List.getElem?_eq_getElem hci]
    rfl
  rw [hcolv]
  exact List.mem_flatten.mpr ⟨_, hrmem, List.getElem_mem hci⟩

/-- The uint8 downcast keeps the payload shape. -/
theorem astype_uint8_shape (v : DenseVal) (H W C : Nat) (h : denseShapeIs v H W C) :
    denseShapeIs (astype_uint8 v) H W C := by
  obtain ⟨h1, h2⟩ := h
  refine ⟨by simpa [astype_uint8] using h1, ?_⟩
  intro row hrow
  simp only [astype_uint8, List.mem_map] at hrow
  obtain ⟨r, hr, rfl⟩ := hrow
  obtain ⟨hrl, hpx⟩ := h2 r hr
  refine ⟨by simpa using hrl, ?_⟩
  intro px hpx2
  simp only [List.mem_map] at hpx2
  obtain ⟨p, hp, rfl⟩ := hpx2
  simpa using hpx p hp

/-- After the uint8 downcast every channel value is below 256. -/
theorem astype_uint8_lt256 (v : DenseVal) :
    ∀ row ∈ astype_uint8 v, ∀ px ∈ row, ∀ c ∈ px, c < 256 := by
  intro row hrow px hpx c hc
  simp only [astype_uint8, List.mem_map] at hrow
  obtain ⟨r, _, rfl⟩ := hrow
  simp only [List.mem_map] at hpx
  obtain ⟨p, _, rfl⟩ := hpx
  simp only [List.mem_map] at hc
  obtain ⟨n, _, rfl⟩ := hc
  exact Nat.mod_lt n (by norm_num)

/-- The modelled resample primitive returns a (height, width, channels) array
and only pixels already present in the input, for non-empty rectangular
input. -/
theorem pil_resize_shape (v : DenseVal) (H W C w h : Nat)
    (hs : denseShapeIs v H W C) (hH : 0 < H) (hW : 0 < W) :
    denseShapeIs (pil_resize v w h) h w C ∧
    ∀ row ∈ pil_resize v w h, ∀ px ∈ row, ∃ r ∈ v, px ∈ r := by
  obtain ⟨h1, h2⟩ := hs
  have hvlen : 0 < v.length := by rw [h1]; exact hH
  have hne : v ≠ [] := List.length_pos.mp hvlen
  have hWhead : (v.headD []).length = W := by
    cases v with
    | nil => exact absurd rfl hne
    | cons a t => exact (h2 a (List.mem_cons_self a t)).1
  have key : ∀ i, i < h → ∀ j, j < w →
      ∃ r ∈ v, (v.getD (i * v.length / h) []).getD (j * (v.headD []).length / w) [] ∈ r := by
    intro i hi j hj
    have hh : 0 < h := Nat.lt_of_le_of_lt (Nat.zero_le i) hi
    have hw : 0 < w := Nat.lt_of_le_of_lt (Nat.zero_le j) hj
    have hri : i * v.length / h < v.length := by
      rw [Nat.div_lt_iff_lt_mul hh, Nat.mul_comm v.length h]
      exact (Nat.mul_lt_mul_right hvlen).mpr hi
    have hrowv : v.getD (i * v.length / h) [] = v.get ⟨i * v.length / h, hri⟩ := by
      rw [List.getD_eq_getElem?_getD, List.getElem?_eq_getElem hri]
      rfl
    have hrmem : v.get ⟨i * v.length / h, hri⟩ ∈ v := List.getElem_mem hri
    have hci : j * (v.headD []).length / w < (v.get ⟨i * v.length / h, hri⟩).length := by
      rw [(h2 _ hrmem).1, hWhead, Nat.div_lt_iff_lt_mul hw, Nat.mul_comm W w]
      exact (Nat.mul_lt_mul_right hW).mpr hj
    have hcolv : (v.get ⟨i * v.length / h, hri⟩).getD (j * (v.headD []).length / w) [] =
        (v.get ⟨i * v.length / h, hri⟩).get ⟨j * (v.headD []).length / w, hci⟩ := by
      rw [List.getD_eq_getElem?_getD, List.getElem?_eq_getElem hci]
      rfl
    rw [hrowv, hcolv]
    exact ⟨_, hrmem, List.getElem_mem hci⟩
  constructor
  · refine ⟨by simp [pil_resize], ?_⟩
    intro row hrow
    simp only [pil_resize, List.mem_map, List.mem_range] at hrow
    obtain ⟨i, hi, rfl⟩ := hrow
    refine ⟨by simp, ?_⟩
    intro px hpx
    simp only [List.mem_map, List.mem_range] at hpx
    obtain ⟨j, hj, rfl⟩ := hpx
    obtain ⟨r, hr, hpxr⟩ := key i hi j hj
    exact (h2 r hr).2 _ hpxr
  · intro row hrow px hpx
    simp only [pil_resize, List.mem_map, List.mem_range] at hrow
    obtain ⟨i, hi, rfl⟩ := hrow
    simp only [List.mem_map, List.mem_range] at hpx
    obtain ⟨j, hj, rfl⟩ := hpx
    exact key i hi j hj

/- ------------------------------------------------------------------ -/
/- Claim theorems                                                      -/
/- ------------------------------------------------------------------ -/

/-- C1: whenever a segmentation prediction's size is resolved with
`deprocess_predictions` set, the target is the frame's native
`image_size` (height, width), regardless of the `dst_height`/`dst_width`
overrides and of the default rule. -/
theorem segmentation_deprocess_forces_frame_size (cfg : ResizeConfig) (m : SegMask)
    (hd : cfg.deprocess_predictions = true) :
    set_sizes cfg (.segmentationPrediction m) = cfg.image_size := by
  simp [set_sizes, hd]

/-- C1 witness: `deprocess_predictions=True`, `dst_height=64`, `dst_width=64`,
`image_size=(300,400)` resolves to (300, 400). -/
theorem segmentation_deprocess_forces_frame_size_witness :
    (⟨some 64, some 64, true, (300, 400), none⟩ : ResizeConfig).deprocess_predictions = true ∧
    set_sizes ⟨some 64, some 64, true, (300, 400), none⟩
      (.segmentationPrediction (.m2 [[1, 0], [2, 1]])) = (300, 400) :=
  ⟨rfl, segmentation_deprocess_forces_frame_size ⟨some 64, some 64, true, (300, 400), none⟩
    (.m2 [[1, 0], [2, 1]]) rfl⟩

/-- C3: for super-resolution entries each axis of the resolved size is the
explicit override when set, with the entry's own payload shape
(`value.shape[0]`/`value.shape[1]`) as fallback; with no overrides the
resolved size is exactly the entry's current spatial shape. -/
theorem super_resolution_size_own_shape (cfg : ResizeConfig) (k : DenseKind) (v : DenseVal)
    (hk : k = DenseKind.superResolutionAnnot ∨ k = DenseKind.superResolutionPrediction)
    (hdh : cfg.dst_height ≠ some 0) (hdw : cfg.dst_width ≠ some 0) :
    set_sizes cfg (.dense k v) =
      (cfg.dst_height.getD (valueShape0 v), cfg.dst_width.getD (valueShape1 v)) ∧
    (cfg.dst_height = none → cfg.dst_width = none →
      set_sizes cfg (.dense k v) = (valueShape0 v, valueShape1 v)) := by
  rcases hk with rfl | rfl <;>
    exact ⟨by simp [set_sizes, pyOrNat_eq_getD _ _ hdh, pyOrNat_eq_getD _ _ hdw],
      fun h1 h2 => by simp [set_sizes, h1, h2, pyOrNat]⟩

/-- C3 witness: a super-resolution prediction with a 3 × 2 payload and no
overrides resolves to its own shape (3, 2). -/
theorem super_resolution_size_own_shape_witness :
    (⟨none, none, false, (10, 20), none⟩ : ResizeConfig).dst_height ≠ some 0 ∧
    set_sizes ⟨none, none, false, (10, 20), none⟩
        (.dense .superResolutionPrediction [[[0], [0]], [[0], [0]], [[0], [0]]]) =
      ((none : Option Nat).getD (valueShape0 [[[0], [0]], [[0], [0]], [[0], [0]]]),
       (none : Option Nat).getD (valueShape1 [[[0], [0]], [[0], [0]], [[0], [0]]])) ∧
    ((none : Option Nat) = none → (none : Option Nat) = none →
      set_sizes ⟨none, none, false, (10, 20), none⟩
          (.dense .superResolutionPrediction [[[0], [0]], [[0], [0]], [[0], [0]]]) =
        (valueShape0 [[[0], [0]], [[0], [0]], [[0], [0]]],
         valueShape1 [[[0], [0]], [[0], [0]], [[0], [0]]])) :=
  ⟨by decide,
    (super_resolution_size_own_shape ⟨none, none, false, (10, 20), none⟩
      .superResolutionPrediction [[[0], [0]], [[0], [0]], [[0], [0]]]
      (Or.inr rfl) (by decide) (by decide)).1,
    (super_resolution_size_own_shape ⟨none, none, false, (10, 20), none⟩
      .superResolutionPrediction [[[0], [0]], [[0], [0]], [[0], [0]]]
      (Or.inr rfl) (by decide) (by decide)).2⟩

/-- C5: every entry covered by the default rule resolves height to
`dst_height` when set else the frame height, and width to `dst_width` when
set else the frame width, the two axes independently. -/
theorem default_size_rule (cfg : ResizeConfig) (e : Entry)
    (he : usesDefaultSizeRule e = true)
    (hdh : cfg.dst_height ≠ some 0) (hdw : cfg.dst_width ≠ some 0) :
    set_sizes cfg e =
      (cfg.dst_height.getD cfg.image_size.1, cfg.dst_width.getD cfg.image_size.2) := by
  cases e with
  | dense k v =>
    cases k <;>
      first
        | exact Bool.noConfusion he
        | simp [set_sizes, pyOrNat_eq_getD _ _ hdh, pyOrNat_eq_getD _ _ hdw]
  | segmentationPrediction m => exact Bool.noConfusion he
  | segmentationAnnot m =>
    simp [set_sizes, pyOrNat_eq_getD _ _ hdh, pyOrNat_eq_getD _ _ hdw]
  | unrecognized t =>
    simp [set_sizes, pyOrNat_eq_getD _ _ hdh, pyOrNat_eq_getD _ _ hdw]

/-- C5 witness: a style-transfer entry with height pinned to 100 and width
unset over frame (30, 40) resolves to (100, 40) — one axis explicit, the
other defaulting to the frame size. -/
theorem default_size_rule_witness :
    usesDefaultSizeRule (.dense .styleTransferPrediction [[[1]]]) = true ∧
    set_sizes ⟨some 100, none, false, (30, 40), some .ALL⟩
        (.dense .styleTransferPrediction [[[1]]]) =
      ((some 100 : Option Nat).getD
        ((⟨some 100, none, false, (30, 40), some .ALL⟩ : ResizeConfig).image_size.1),
       (none : Option Nat).getD
        ((⟨some 100, none, false, (30, 40), some .ALL⟩ : ResizeConfig).image_size.2)) :=
  ⟨by decide,
    default_size_rule ⟨some 100, none, false, (30, 40), some .ALL⟩
      (.dense .styleTransferPrediction [[[1]]]) (by decide) (by decide) (by decide)⟩

/-- C2: resizing a multi-channel (classes × H × W) mask entry resizes each
class channel independently through `segm_resize` and restacks them in the
original order, preserving the channel count exactly; each resized channel
only carries labels already present in that input channel. -/
theorem multi_channel_mask_resize_channels (ms : Mask3) (height width W : Nat)
    (hW : 0 < W) (hch : ∀ c ∈ ms, c ≠ [] ∧ ∀ row ∈ c, row.length = W) :
    resize (.segmentationPrediction (.m3 ms)) height width =
      .segmentationPrediction (.m3 (ms.map (fun c => segm_resize c width height))) ∧
    (ms.map (fun c => segm_resize c width height)).length = ms.length ∧
    ∀ c ∈ ms, ∀ x ∈ (segm_resize c width height).flatten, x ∈ c.flatten := by
  refine ⟨rfl, List.length_map _ _, ?_⟩
  intro c hc x hx
  exact segm_resize_mem c W width height (hch c hc).1 hW (hch c hc).2 x hx

/-- C2 witness: a two-channel 2 × 2 mask resized to height 1, width 3. -/
theorem multi_channel_mask_resize_channels_witness :
    (0 < 2 ∧ ∀ c ∈ ([[[1, 2], [3, 4]], [[9, 9], [5, 9]]] : Mask3),
      c ≠ [] ∧ ∀ row ∈ c, row.length = 2) ∧
    (resize (.segmentationPrediction (.m3 [[[1, 2], [3, 4]], [[9, 9], [5, 9]]])) 1 3 =
        .segmentationPrediction
          (.m3 (([[[1, 2], [3, 4]], [[9, 9], [5, 9]]] : Mask3).map
            (fun c => segm_resize c 3 1))) ∧
      (([[[1, 2], [3, 4]], [[9, 9], [5, 9]]] : Mask3).map
          (fun c => segm_resize c 3 1)).length =
        ([[[1, 2], [3, 4]], [[9, 9], [5, 9]]] : Mask3).length ∧
      ∀ c ∈ ([[[1, 2], [3, 4]], [[9, 9], [5, 9]]] : Mask3),
        ∀ x ∈ (segm_resize c 3 1).flatten, x ∈ c.flatten) :=
  ⟨⟨by decide, by decide⟩,
    multi_channel_mask_resize_channels [[[1, 2], [3, 4]], [[9, 9], [5, 9]]] 1 3 2
      (by decide) (by decide)⟩

/-- C7: resizing a dense-value entry downcasts the payload to uint8, then
resamples it to the target through the modelled bicubic primitive, storing
the result back in the entry; the result has shape exactly
(height, width, channels) and stays inside the 8-bit range. -/
theorem dense_resize_uint8_bicubic (k : DenseKind) (v : DenseVal)
    (height width H W C : Nat) (hs : denseShapeIs v H W C) (hH : 0 < H) (hW : 0 < W) :
    resize (.dense k v) height width =
      .dense k (pil_resize (astype_uint8 v) width height) ∧
    denseShapeIs (pil_resize (astype_uint8 v) width height) height width C ∧
    ∀ row ∈ pil_resize (astype_uint8 v) width height, ∀ px ∈ row, ∀ c ∈ px, c < 256 := by
  have hs8 := astype_uint8_shape v H W C hs
  have hp := pil_resize_shape (astype_uint8 v) H W C width height hs8 hH hW
  refine ⟨rfl, hp.1, ?_⟩
  intro row hrow px hpx c hc
  obtain ⟨r, hr, hpxr⟩ := hp.2 row hrow px hpx
  exact astype_uint8_lt256 v r hr px hpxr c hc

/-- C7 witness: a 2 × 2 × 1 style-transfer payload with a value above 255,
resized to height 1, width 3. -/
theorem dense_resize_uint8_bicubic_witness :
    (denseShapeIs [[[300], [1]], [[2], [3]]] 2 2 1 ∧ 0 < 2) ∧
    (resize (.dense .styleTransferPrediction [[[300], [1]], [[2], [3]]]) 1 3 =
        .dense .styleTransferPrediction
          (pil_resize (astype_uint8 [[[300], [1]], [[2], [3]]]) 3 1) ∧
      denseShapeIs (pil_resize (astype_uint8 [[[300], [1]], [[2], [3]]]) 3 1) 1 3 1 ∧
      ∀ row ∈ pil_resize (astype_uint8 [[[300], [1]], [[2], [3]]]) 3 1,
        ∀ px ∈ row, ∀ c ∈ px, c < 256) :=
  ⟨⟨by simp [denseShapeIs], by decide⟩,
    dense_resize_uint8_bicubic .styleTransferPrediction [[[300], [1]], [[2], [3]]] 1 3 2 2 1
      (by simp [denseShapeIs]) (by decide) (by decide)⟩

/-- C9: an entry kind absent from the resize dispatch table is returned
unchanged, for any target height and width. -/
theorem unrecognized_entry_resize_identity (t height width : Nat) :
    resize (.unrecognized t) height width = .unrecognized t := rfl

/-- C4: under the prediction gate, every index reached by the truncating zip
of annotations with predictions resizes the prediction with the sizes
resolved from the annotation when one is present at that index and from the
prediction itself when the placeholder is null; with an empty annotation
collection every prediction is resolved and resized from its own logic. -/
theorem prediction_pass_pairing (cfg : ResizeConfig) (anns : List (Option Entry))
    (preds : List Entry) (hgate : predictionGate cfg.apply_to = true) :
    (anns = [] → (process_image cfg anns preds).2 = preds.map (resizeSelf cfg)) ∧
    (∀ i, ∀ ha : i < anns.length, ∀ hp : i < preds.length,
      ((process_image cfg anns preds).2)[i]? =
        some (match anns.get ⟨i, ha⟩ with
          | some a =>
              resize (preds.get ⟨i, hp⟩) (set_sizes cfg a).1 (set_sizes cfg a).2
          | none => resizeSelf cfg (preds.get ⟨i, hp⟩))) := by
  constructor
  · intro hnil
    subst hnil
    simp [process_image, hgate, predictionPass]
  · intro i ha hp
    have hne : ¬anns.isEmpty := by
      cases anns with
      | nil => exact absurd ha (by simp)
      | cons a t => simp
    have hzlen : i < ((anns.zip preds).map (fun ap =>
        resizePairedPrediction cfg ap.1 ap.2)).length := by
      rw [List.length_map, List.length_zip]
      exact lt_min ha hp
    have hzlen0 : i < (anns.zip preds).length := by
      rw [List.length_zip]; exact lt_min ha hp
    simp only [process_image, hgate, if_pos, predictionPass, Bool.not_eq_true] at *
    rw [if_neg (by simpa using hne)]
    rw [List.getElem?_append, if_pos hzlen, List.getElem?_map,
      List.getElem?_eq_getElem hzlen0]
    have hzip : (anns.zip preds).get ⟨i, hzlen0⟩ = (anns.get ⟨i, ha⟩, preds.get ⟨i, hp⟩) :=
      List.getElem_zip
    show some (resizePairedPrediction cfg ((anns.zip preds).get ⟨i, hzlen0⟩).1
        ((anns.zip preds).get ⟨i, hzlen0⟩).2) = _
    rw [hzip]
    cases hA : anns.get ⟨i, ha⟩ with
    | none => simp [resizePairedPrediction, resizeSelf]
    | some a => simp [resizePairedPrediction, resizeSelf]

/-- C4 witness: one null and one present annotation zipped against three
predictions under an unset `apply_to`. -/
theorem prediction_pass_pairing_witness :
    predictionGate (⟨some 2, some 2, false, (4, 5), none⟩ : ResizeConfig).apply_to = true ∧
    (([none, some (Entry.unrecognized 0)] : List (Option Entry)) = [] →
      (process_image ⟨some 2, some 2, false, (4, 5), none⟩
          [none, some (Entry.unrecognized 0)]
          [Entry.unrecognized 1, Entry.unrecognized 2, Entry.unrecognized 3]).2 =
        ([Entry.unrecognized 1, Entry.unrecognized 2, Entry.unrecognized 3]).map
          (resizeSelf ⟨some 2, some 2, false, (4, 5), none⟩)) ∧
    (∀ i, ∀ ha : i < ([none, some (Entry.unrecognized 0)] : List (Option Entry)).length,
      ∀ hp : i < ([Entry.unrecognized 1, Entry.unrecognized 2,
          Entry.unrecognized 3] : List Entry).length,
      ((process_image ⟨some 2, some 2, false, (4, 5), none⟩
          [none, some (Entry.unrecognized 0)]
          [Entry.unrecognized 1, Entry.unrecognized 2, Entry.unrecognized 3]).2)[i]? =
        some (match ([none, some (Entry.unrecognized 0)] :
            List (Option Entry)).get ⟨i, ha⟩ with
          | some a =>
              resize (([Entry.unrecognized 1, Entry.unrecognized 2,
                  Entry.unrecognized 3] : List Entry).get ⟨i, hp⟩)
                (set_sizes ⟨some 2, some 2, false, (4, 5), none⟩ a).1
                (set_sizes ⟨some 2, some 2, false, (4, 5), none⟩ a).2
          | none =>
              resizeSelf ⟨some 2, some 2, false, (4, 5), none⟩
                (([Entry.unrecognized 1, Entry.unrecognized 2,
                    Entry.unrecognized 3] : List Entry).get ⟨i, hp⟩))) :=
  ⟨rfl,
    (prediction_pass_pairing ⟨some 2, some 2, false, (4, 5), none⟩
      [none, some (Entry.unrecognized 0)]
      [Entry.unrecognized 1, Entry.unrecognized 2, Entry.unrecognized 3] rfl).1,
    (prediction_pass_pairing ⟨some 2, some 2, false, (4, 5), none⟩
      [none, some (Entry.unrecognized 0)]
      [Entry.unrecognized 1, Entry.unrecognized 2, Entry.unrecognized 3] rfl).2⟩

/-- C6: the prediction collection is processed exactly when `apply_to` is
unset or PREDICTION or ALL, and the annotation collection exactly when
`apply_to` is unset or ANNOTATION or ALL; the two gates are independent, so
under PREDICTION the annotations are untouched and under ANNOTATION the
predictions are untouched. -/
theorem apply_to_gating (cfg : ResizeConfig) (anns : List (Option Entry))
    (preds : List Entry) :
    ((process_image cfg anns preds).2 =
      if cfg.apply_to = none ∨ cfg.apply_to = some ApplyToOption.PREDICTION ∨
          cfg.apply_to = some ApplyToOption.ALL
        then predictionPass cfg anns preds else preds) ∧
    ((process_image cfg anns preds).1 =
      if cfg.apply_to = none ∨ cfg.apply_to = some ApplyToOption.ANNOTATION ∨
          cfg.apply_to = some ApplyToOption.ALL
        then annotationPass cfg anns else anns) := by
  obtain ⟨dh, dw, dp, isz, ap⟩ := cfg
  cases ap with
  | none => simp [process_image, predictionGate, annotationGate]
  | some x => cases x <;> simp [process_image, predictionGate, annotationGate]

/-- C8: under the annotation gate, null placeholders in the annotation
collection are skipped unchanged while each present annotation is resolved
and resized independently. -/
theorem annotation_pass_skips_null (cfg : ResizeConfig) (anns : List (Option Entry))
    (preds : List Entry) (hgate : annotationGate cfg.apply_to = true) :
    (∀ i : Nat, anns[i]? = some none →
      ((process_image cfg anns preds).1)[i]? = some none) ∧
    (∀ i : Nat, ∀ e : Entry, anns[i]? = some (some e) →
      ((process_image cfg anns preds).1)[i]? = some (some (resizeSelf cfg e))) := by
  constructor
  · intro i hi
    simp [process_image, hgate, annotationPass, List.getElem?_map, hi]
  · intro i e hi
    simp [process_image, hgate, annotationPass, List.getElem?_map, hi]

/-- C8 witness: `apply_to=ANNOTATION` with one null and one segmentation
annotation. -/
theorem annotation_pass_skips_null_witness :
    annotationGate (⟨some 2, some 3, false, (6, 7), some .ANNOTATION⟩ :
        ResizeConfig).apply_to = true ∧
    (∀ i : Nat, ([none, some (Entry.segmentationAnnot [[1, 2], [3, 4]])] :
          List (Option Entry))[i]? = some none →
      ((process_image ⟨some 2, some 3, false, (6, 7), some .ANNOTATION⟩
          [none, some (Entry.segmentationAnnot [[1, 2], [3, 4]])] []).1)[i]? =
        some none) ∧
    (∀ i : Nat, ∀ e : Entry,
      ([none, some (Entry.segmentationAnnot [[1, 2], [3, 4]])] :
          List (Option Entry))[i]? = some (some e) →
      ((process_image ⟨some 2, some 3, false, (6, 7), some .ANNOTATION⟩
          [none, some (Entry.segmentationAnnot [[1, 2], [3, 4]])] []).1)[i]? =
        some (some (resizeSelf ⟨some 2, some 3, false, (6, 7), some .ANNOTATION⟩ e))) :=
  ⟨rfl,
    (annotation_pass_skips_null ⟨some 2, some 3, false, (6, 7), some .ANNOTATION⟩
      [none, some (Entry.segmentationAnnot [[1, 2], [3, 4]])] [] rfl).1,
    (annotation_pass_skips_null ⟨some 2, some 3, false, (6, 7), some .ANNOTATION⟩
      [none, some (Entry.segmentationAnnot [[1, 2], [3, 4]])] [] rfl).2⟩

/-- C10: when `apply_to` equals PREDICTION the annotation collection comes
back from `process_image` exactly as it went in — annotations are only read
for size resolution, never mutated. -/
theorem prediction_only_leaves_annotations (cfg : ResizeConfig)
    (anns : List (Option Entry)) (preds : List Entry)
    (h : cfg.apply_to = some ApplyToOption.PREDICTION) :
    (process_image cfg anns preds).1 = anns := by
  simp [process_image, annotationGate, h]

/-- C10 witness: a segmentation annotation consulted for the prediction pass
is returned unchanged when `apply_to=PREDICTION`. -/
theorem prediction_only_leaves_annotations_witness :
    (⟨none, none, false, (2, 2), some .PREDICTION⟩ : ResizeConfig).apply_to =
      some ApplyToOption.PREDICTION ∧
    (process_image ⟨none, none, false, (2, 2), some .PREDICTION⟩
        [some (Entry.segmentationAnnot [[1]])]
        [Entry.segmentationPrediction (.m2 [[0, 1], [1, 0]])]).1 =
      [some (Entry.segmentationAnnot [[1]])] :=
  ⟨rfl,
    prediction_only_leaves_annotations ⟨none, none, false, (2, 2), some .PREDICTION⟩
      [some (Entry.segmentationAnnot [[1]])]
      [Entry.segmentationPrediction (.m2 [[0, 1], [1, 0]])] rfl⟩

end ResizeSpec
